import Mathlib

/-!
# Aloha Editor: toolbar surface and undo loader shim

A shallow embedding of `src/plugins/common/ui/lib/toolbar.js` and
`src/plugins/common/undo/undo.js`.

JavaScript objects with identity (toolbars, DOM elements, timers) are
references (`Nat`) into explicit stores; the class-level statics of
`Toolbar` and the members of `Toolbar.prototype` are fields of one `World`
record that every operation takes and returns.  Calls that leave the file
(`floating.*`, the `Surface` constructor) are appended to `World.calls` in
program order.  Pixel coordinates are integers.
-/

namespace Aloha

/-! ## Data model of toolbar.js -/

/-- A `{top, left}` coordinate object. -/
structure Position where
  top : Int
  left : Int
deriving DecidableEq, Repr

/-- One entry of `editable.settings.toolbar`: `{label, showOn, components}`.
`label = none` stands for an absent label. -/
structure TabSettings where
  label : Option String
  showOn : String
  components : List (List String)
deriving DecidableEq, Repr

/-- An `Aloha.Editable` as far as toolbar.js reads and writes it:
`settings.toolbar` (`none` when missing) and `toolbars` (`none` until
created). -/
structure Editable where
  id : Nat
  settingsToolbar : Option (List TabSettings)
  toolbars : Option (List Nat)
deriving DecidableEq, Repr

/-- The object built by `new Tab({label, showOn, editable, container},
components)`, recorded by its constructor arguments. -/
structure Tab where
  label : String
  showOn : String
  editable : Nat
  container : Nat
  components : List (List String)
deriving DecidableEq, Repr

/-- Own properties of one `Toolbar` instance: `$element`, `$_container`,
`_moveTimeout` (`none` until `_move` first assigns it) and the inline
`top`/`left` style of `$element` (`none` until `css` sets it).  There is no
own `_tabs`: the constructor never assigns `this._tabs`. -/
structure Toolbar where
  element : Nat
  container : Nat
  moveTimeout : Option Nat
  style : Option Position
deriving DecidableEq, Repr

/-- Calls into modules outside toolbar.js, in program order. -/
inductive Call where
  | trackRange (element : Nat)
  | getPinState
  | surfaceSuper (self editable : Nat)
  | makeFloating (self : Nat)
  | floatSurface (self editable : Nat) (duration : Option Nat)
  | togglePinSurfaces (instances : List Nat) (position : Position) (isFloating : Bool)
deriving DecidableEq, Repr

/-- A pending `setTimeout` callback of `_move`: its handle and the captured
`that` and `duration`. -/
structure Timer where
  handle : Nat
  surface : Nat
  duration : Option Nat
deriving DecidableEq, Repr

/-- The `$pin` element made by `addPin`: its CSS classes and the captured
`surface` of its click handler. -/
structure Pin where
  classes : List String
  surface : Nat
deriving DecidableEq, Repr

/-- The whole mutable state toolbar.js works on. -/
structure World where
  /-- `Toolbar.instances` -/
  instances : List Nat
  /-- children of `Toolbar.$surfaceContainer` -/
  surfaceChildren : List Nat
  /-- a `fadeOut` of the surface container is running, its callback not yet called -/
  fadeOutPending : Bool
  /-- `Toolbar.isFloatingMode` -/
  isFloatingMode : Bool
  /-- `Toolbar.pinLeft` -/
  pinLeft : Int
  /-- `Toolbar.pinTop` -/
  pinTop : Int
  /-- `Toolbar.prototype._tabs`, the array literal of the class body -/
  protoTabs : List Tab
  /-- every constructed toolbar; a toolbar reference is an index here -/
  heap : List Toolbar
  /-- allocator of DOM elements -/
  nextElement : Nat
  /-- pins created by `addPin` -/
  pins : List Pin
  /-- pending timers, oldest first -/
  timers : List Timer
  /-- the last handle `setTimeout` returned -/
  lastTimer : Nat
  /-- trace of outside calls -/
  calls : List Call
deriving DecidableEq, Repr

/-- What `floating.getPinState()` returns. -/
structure PinState where
  top : Int
  left : Int
  isPinned : Bool
deriving DecidableEq, Repr

/-! ## Operations of toolbar.js -/

/-- `$('<div>')`, `Tab.createContainer()`: a fresh DOM element. -/
def createElement (w : World) : Nat × World :=
  (w.nextElement, { w with nextElement := w.nextElement + 1 })

/-- `settings.label || ''`. -/
def labelOrEmpty (label : Option String) : String :=
  match label with
  | some s => if s = "" then "" else s
  | none => ""

/-- The `new Tab(...)` expression of the constructor loop. -/
def newTab (editable : Editable) (container : Nat) (settings : TabSettings) : Tab :=
  { label := labelOrEmpty settings.label
    showOn := settings.showOn
    editable := editable.id
    container := container
    components := settings.components }

/-- The `for` loop of the constructor: `this._tabs.push(new Tab(...))` for
each entry.  `this._tabs` resolves to the prototype's array. -/
def pushTabs (editable : Editable) (container : Nat) :
    List TabSettings → List Tab → List Tab
  | [], tabs => tabs
  | settings :: rest, tabs =>
    pushTabs editable container rest (tabs ++ [newTab editable container settings])

/-- `this._tabs` read on the instance `self`: no instance has an own
`_tabs`, so the lookup ends at the prototype. -/
def Toolbar._tabs (_self : Nat) (w : World) : List Tab := w.protoTabs

/-- `Toolbar._constructor(editable)`; returns the reference of the new
instance.  `none` is the TypeError of `tabs.length` when
`editable.settings.toolbar` is missing. -/
def Toolbar._constructor (editable : Editable) (w : World) : Option (Nat × World) :=
  let self := w.heap.length
  let w := { w with calls := w.calls ++ [Call.surfaceSuper self editable.id] }
  let (element, w) := createElement w
  let (container, w) := createElement w
  match editable.settingsToolbar with
  | none => none
  | some tabs =>
    let tb : Toolbar :=
      { element := element, container := container, moveTimeout := none, style := none }
    let w := { w with
      heap := w.heap ++ [tb]
      protoTabs := pushTabs editable container tabs w.protoTabs }
    some (self, { w with calls := w.calls ++ [Call.makeFloating self] })

/-- `Toolbar.setFloatingPosition(position)`. -/
def Toolbar.setFloatingPosition (position : Position) (w : World) : World :=
  { w with pinTop := position.top, pinLeft := position.left }

/-- `Toolbar.getFloatingPosition()`. -/
def Toolbar.getFloatingPosition (w : World) : Position :=
  { top := w.pinTop, left := w.pinLeft }

/-- `Toolbar.init()`, run once when the module loads, on the statics as the
class body declares them (`instances: []`, no surface container yet);
`pinState` is what `floating.getPinState()` returns.  The surface container
is DOM element 0 and starts without children. -/
def Toolbar.init (pinState : PinState) : World :=
  { instances := []
    surfaceChildren := []
    fadeOutPending := false
    isFloatingMode := !pinState.isPinned
    pinLeft := pinState.left
    pinTop := pinState.top
    protoTabs := []
    heap := []
    nextElement := 1
    pins := []
    timers := []
    lastTimer := 0
    calls := [Call.trackRange 0, Call.getPinState] }

/-- `Toolbar.createSurface(editable)`: the result (`none` for `null`), the
editable after the call and the world after the call. -/
def Toolbar.createSurface (editable : Editable) (w : World) :
    Option Nat × Editable × World :=
  match editable.settingsToolbar with
  | none => (none, editable, w)
  | some tabs =>
    if tabs.length ≠ 0 then
      match Toolbar._constructor editable w with
      | none => (none, editable, w)
      | some (surface, w) =>
        let element := match w.heap[surface]? with
          | some tb => tb.element
          | none => 0
        let toolbars := match editable.toolbars with
          | none => []
          | some ts => ts
        let editable := { editable with toolbars := some (toolbars ++ [element]) }
        (some surface, editable, { w with instances := w.instances ++ [surface] })
    else (none, editable, w)

/-- `clearTimeout(handle)`. -/
def clearTimeout (handle : Nat) (w : World) : World :=
  { w with timers := w.timers.filter (fun t => t.handle ≠ handle) }

/-- `setTimeout(callback, 1)` for the callback of `_move`; handles are
positive integers, each larger than the one before. -/
def setTimeout (surface : Nat) (duration : Option Nat) (w : World) : Nat × World :=
  let handle := w.lastTimer + 1
  (handle, { w with
    lastTimer := handle
    timers := w.timers ++ [{ handle := handle, surface := surface, duration := duration }] })

/-- `Toolbar._move(duration)` on the instance `self`. -/
def Toolbar._move (self : Nat) (duration : Option Nat) (w : World) : World :=
  match w.heap[self]? with
  | none => w
  | some tb =>
    let w := match tb.moveTimeout with
      | some handle => if handle ≠ 0 then clearTimeout handle w else w
      | none => w
    let (handle, w) := setTimeout self duration w
    { w with heap := w.heap.set self { tb with moveTimeout := some handle } }

/-- The function `_move` hands to `setTimeout`, run with the value
`Aloha.activeEditable` has at that time. -/
def moveCallback (that : Nat) (duration : Option Nat) (activeEditable : Option Nat)
    (w : World) : World :=
  match activeEditable with
  | some editable =>
    if w.isFloatingMode then
      { w with calls := w.calls ++ [Call.floatSurface that editable duration] }
    else w
  | none => w

/-- The event loop runs the pending timer `handle`: it leaves the queue and
its callback runs. -/
def fireTimer (handle : Nat) (activeEditable : Option Nat) (w : World) : World :=
  match w.timers.find? (fun t => t.handle = handle) with
  | none => w
  | some t =>
    moveCallback t.surface t.duration activeEditable
      { w with timers := w.timers.filter (fun t => t.handle ≠ handle) }

/-- The callback `_move` passes to `floating.floatSurface`, called with a
position. -/
def floatCallback (position : Position) (w : World) : World :=
  Toolbar.setFloatingPosition position w

/-- `Toolbar.addPin()` on the instance `self`: the new `$pin` with its
classes and click handler.  The hover handlers, which only add and remove
the class `aloha-ui-hover`, are left out. -/
def Toolbar.addPin (self : Nat) (w : World) : World :=
  let classes := ["aloha-ui-pin"]
  let classes := if !w.isFloatingMode then classes ++ ["aloha-ui-pin-down"] else classes
  { w with pins := w.pins ++ [{ classes := classes, surface := self }] }

/-- The click handler `addPin` binds to `$pin`.  `offset` is
`surface.$element.offset()` and `scrollTop` is `$(window).scrollTop()` at
the time of the click. -/
def pinClick (_surface : Nat) (offset : Position) (scrollTop : Int) (w : World) : World :=
  let w := { w with isFloatingMode := !w.isFloatingMode }
  let position : Position :=
    if w.isFloatingMode then { top := w.pinTop, left := w.pinLeft }
    else { offset with top := offset.top - scrollTop }
  let w := Toolbar.setFloatingPosition position w
  { w with calls := w.calls ++ [Call.togglePinSurfaces w.instances position w.isFloatingMode] }

/-- `Toolbar.show()` on the instance `self`: detach all children of the
surface container, append `$element`, stop the container's animation and
fade it in, set `$element`'s top/left to the floating position, `_move()`. -/
def Toolbar.show (self : Nat) (w : World) : World :=
  match w.heap[self]? with
  | none => w
  | some tb =>
    let w := { w with surfaceChildren := [] }
    let w := { w with surfaceChildren := w.surfaceChildren ++ [tb.element] }
    let w := { w with fadeOutPending := false }
    let position := Toolbar.getFloatingPosition w
    let w := { w with heap := w.heap.set self { tb with style := some position } }
    Toolbar._move self none w

/-- `Toolbar.hide()`: starts the fade-out; the container is emptied only by
`fadeOutComplete`. -/
def Toolbar.hide (_self : Nat) (w : World) : World :=
  { w with fadeOutPending := true }

/-- The completion callback of the `fadeOut` started by `hide`. -/
def fadeOutComplete (w : World) : World :=
  if w.fadeOutPending then { w with surfaceChildren := [], fadeOutPending := false }
  else w

/-! ## Events on the toolbar state -/

/-- What can happen to the toolbar state: calls of the public operations
and the callbacks the file registers (pin click, move timer, float callback,
fade-out completion). -/
inductive Event where
  | createSurface (editable : Editable)
  | addPin (self : Nat)
  | pinClick (surface : Nat) (offset : Position) (scrollTop : Int)
  | move (self : Nat) (duration : Option Nat)
  | fireTimer (handle : Nat) (activeEditable : Option Nat)
  | floatCallback (position : Position)
  | show (self : Nat)
  | hide (self : Nat)
  | fadeOutComplete
deriving DecidableEq, Repr

/-- One event applied to the world. -/
def step (ev : Event) (w : World) : World :=
  match ev with
  | .createSurface editable => (Toolbar.createSurface editable w).2.2
  | .addPin self => Toolbar.addPin self w
  | .pinClick surface offset scrollTop => pinClick surface offset scrollTop w
  | .move self duration => Toolbar._move self duration w
  | .fireTimer handle activeEditable => fireTimer handle activeEditable w
  | .floatCallback position => floatCallback position w
  | .show self => Toolbar.show self w
  | .hide self => Toolbar.hide self w
  | .fadeOutComplete => fadeOutComplete w

/-- A sequence of events, applied left to right. -/
def run (evs : List Event) (w : World) : World :=
  evs.foldl (fun w ev => step ev w) w

/-- The events that call `Toolbar.setFloatingPosition`. -/
def Event.updatesPosition : Event → Bool
  | .pinClick _ _ _ => true
  | .floatCallback _ => true
  | _ => false

/-- The pending move timers whose callback captured the toolbar `self`. -/
def pendingMoves (self : Nat) (w : World) : List Timer :=
  w.timers.filter (fun t => t.surface = self)

/-- `_move` called once for each duration of the list, in order, on the
same toolbar. -/
def moveAll (self : Nat) (durations : List (Option Nat)) (w : World) : World :=
  durations.foldl (fun w d => Toolbar._move self d w) w

/-- The timers left by the guarded `clearTimeout` at the start of `_move`,
for a toolbar whose own properties are `tb`. -/
def afterClear (tb : Toolbar) (w : World) : List Timer :=
  match tb.moveTimeout with
  | some handle =>
    if handle ≠ 0 then w.timers.filter (fun t => t.handle ≠ handle) else w.timers
  | none => w.timers

/-- Every pending move timer has a non-zero handle that `setTimeout` has
already handed out, and the toolbar its callback captured still stores that
handle in `_moveTimeout`. -/
def TimersOwned (w : World) : Prop :=
  ∀ τ ∈ w.timers, τ.handle ≠ 0 ∧ τ.handle ≤ w.lastTimer ∧
    ∃ tb, w.heap[τ.surface]? = some tb ∧ tb.moveTimeout = some τ.handle

/-- The invariant of the toolbar state: timers are owned, no toolbar has
two pending move timers, and `Toolbar.instances` holds constructed
toolbars only. -/
def Consistent (w : World) : Prop :=
  TimersOwned w ∧
  (∀ self, (pendingMoves self w).length ≤ 1) ∧
  (∀ t ∈ w.instances, t < w.heap.length)

end Aloha

/-! ## The loader shim of undo.js -/

namespace UndoShim

/-- A JavaScript value as far as the shim tells values apart: `undefined`
or some other value, named by a number. -/
inductive Value where
  | undefined
  | ref (n : Nat)
deriving DecidableEq, Repr

/-- An own data property of an object: its value and whether it is
writable. -/
structure Slot where
  value : Value
  writable : Bool
deriving DecidableEq, Repr

/-- An object bound to `window.Aloha`: its `define` property (`undefined`
when absent), the three properties the shim writes (`none` when the object
has no such own property) and whether the object is extensible.  A frozen
object is not extensible and all its properties are not writable. -/
structure AlohaObject where
  define : Value
  _defineReplacedByAloha : Option Slot
  _requireReplacedByAloha : Option Slot
  _requirejsReplacedByAloha : Option Slot
  extensible : Bool
deriving DecidableEq, Repr

/-- What `window.Aloha` holds: nothing (any falsy value), a truthy
primitive, or an object. -/
inductive AlohaBinding where
  | missing
  | primitive
  | object (aloha : AlohaObject)
deriving DecidableEq, Repr

/-- One call of `document.write`: the text written and the value the global
`define` had when it was called. -/
structure Write where
  html : String
  define : Value
deriving DecidableEq, Repr

/-- The global scope the shim runs in; `ALOHA_BASE_URL = none` is an
undeclared variable. -/
structure Globals where
  Aloha : AlohaBinding
  define : Value
  require : Value
  requirejs : Value
  ALOHA_BASE_URL : Option String
  written : List Write
deriving DecidableEq, Repr

/-- The object literal `{}`. -/
def emptyObject : AlohaObject :=
  { define := Value.undefined
    _defineReplacedByAloha := none
    _requireReplacedByAloha := none
    _requirejsReplacedByAloha := none
    extensible := true }

/-- The assignment `obj.p = v` in non-strict code (undo.js has no strict
directive), on the own property `slot` of an object: a writable property
takes the value, a missing one is added when the object is extensible, and
otherwise the write is dropped without an error. -/
def assign (extensible : Bool) (slot : Option Slot) (v : Value) : Option Slot :=
  match slot with
  | some s => if s.writable then some { s with value := v } else some s
  | none => if extensible then some { value := v, writable := true } else none

/-- The property read `obj.p` on an own property. -/
def readSlot (slot : Option Slot) : Value :=
  match slot with
  | some s => s.value
  | none => Value.undefined

/-- Lines 32-35: `Aloha = window.Aloha || {}` and the three saves.  On a
primitive the saves are dropped. -/
def preserve (g : Globals) : Globals :=
  let binding := match g.Aloha with
    | .missing => AlohaBinding.object emptyObject
    | .primitive => AlohaBinding.primitive
    | .object aloha => AlohaBinding.object aloha
  match binding with
  | .object aloha =>
    let aloha := { aloha with
      _defineReplacedByAloha := assign aloha.extensible aloha._defineReplacedByAloha g.define }
    let aloha := { aloha with
      _requireReplacedByAloha := assign aloha.extensible aloha._requireReplacedByAloha g.require }
    let aloha := { aloha with
      _requirejsReplacedByAloha :=
        assign aloha.extensible aloha._requirejsReplacedByAloha g.requirejs }
    { g with Aloha := AlohaBinding.object aloha }
  | binding => { g with Aloha := binding }

/-- The expression `window.Aloha.define`, read where a missing
`window.Aloha` has already been replaced by `{}`; a primitive has no such
property. -/
def windowAlohaDefine (g : Globals) : Value :=
  match g.Aloha with
  | .object aloha => aloha.define
  | .primitive => Value.undefined
  | .missing => Value.undefined

/-- One of lines 74-76: `define = window.Aloha.define;
document.write(before + ALOHA_BASE_URL + after)`.  An error carries the
globals at the throw: a TypeError when `window.Aloha` is missing, a
ReferenceError when `ALOHA_BASE_URL` is undeclared. -/
def inject (before after : String) (g : Globals) : Except Globals Globals :=
  match g.Aloha with
  | .missing => .error g
  | _ =>
    let g := { g with define := windowAlohaDefine g }
    match g.ALOHA_BASE_URL with
    | none => .error g
    | some base =>
      .ok { g with written := g.written ++ [{ html := before ++ base ++ after,
                                              define := g.define }] }

/-- Lines 78-82: the restore, guarded by
`Aloha.hasOwnProperty('_defineReplacedByAloha')`. -/
def restore (g : Globals) : Except Globals Globals :=
  match g.Aloha with
  | .missing => .error g
  | .primitive => .ok g
  | .object aloha =>
    match aloha._defineReplacedByAloha with
    | some d =>
      .ok { g with
        define := d.value
        require := readSlot aloha._requireReplacedByAloha
        requirejs := readSlot aloha._requirejsReplacedByAloha }
    | none => .ok g

/-- The whole immediately-invoked function of undo.js. -/
def shim (g : Globals) : Except Globals Globals := do
  let g := preserve g
  let g ← inject "<script data-gg-define=\"undo/vendor/undo\" src=\""
    "plugins/common/undo/vendor/undo.js\"></script>" g
  let g ← inject "<script data-gg-define=\"undo/vendor/diff_match_patch_uncompressed\" src=\""
    "plugins/common/undo/vendor/diff_match_patch_uncompressed.js\"></script>" g
  let g ← inject "<script data-gg-define=\"undo/undo-plugin\" src=\""
    "plugins/common/undo/lib/undo-plugin.js\"></script>" g
  restore g

/-- Whether the assignment `obj.p = v` of `assign` takes effect. -/
def canAssign (extensible : Bool) (slot : Option Slot) : Bool :=
  match slot with
  | some s => s.writable
  | none => extensible

/-- The three saves of lines 33-35 take effect: `window.Aloha` is missing
(and becomes `{}`), or it is an object on which each of the three properties
is writable, or absent while the object is extensible. -/
def savesTakeEffect (g : Globals) : Bool :=
  match g.Aloha with
  | .missing => true
  | .primitive => false
  | .object aloha =>
    canAssign aloha.extensible aloha._defineReplacedByAloha &&
    canAssign aloha.extensible aloha._requireReplacedByAloha &&
    canAssign aloha.extensible aloha._requirejsReplacedByAloha

/-- A page where almond.js has installed its own loader hooks and
`window.Aloha` carries Aloha's `define`. -/
def samplePage : Globals :=
  { Aloha := AlohaBinding.object { emptyObject with define := Value.ref 7 }
    define := Value.ref 1
    require := Value.ref 2
    requirejs := Value.undefined
    ALOHA_BASE_URL := some "/aloha/"
    written := [] }

/-- The same page with `window.Aloha` frozen by `Object.freeze`, holding
only `define`. -/
def frozenPage : Globals :=
  { samplePage with
    Aloha := AlohaBinding.object
      { emptyObject with define := Value.ref 7, extensible := false } }

end UndoShim

namespace Aloha

/-! ## Sample inputs -/

/-- A toolbar setting with one labelled tab. -/
def formatTab : TabSettings :=
  { label := some "Format", showOn := "Aloha.continuoustext",
    components := [["bold", "italic"], ["formatBlock"]] }

/-- A toolbar setting with one tab without a label. -/
def tableTab : TabSettings :=
  { label := none, showOn := "table", components := [["mergecells"]] }

/-- An editable with a one-tab toolbar and no `toolbars` property yet. -/
def editableA : Editable :=
  { id := 1, settingsToolbar := some [formatTab], toolbars := none }

/-- A second editable, also with a one-tab toolbar. -/
def editableB : Editable :=
  { id := 2, settingsToolbar := some [tableTab], toolbars := none }

/-- An editable whose toolbar setting is an empty array. -/
def editableEmpty : Editable :=
  { id := 3, settingsToolbar := some [], toolbars := none }

/-- The world right after `Toolbar.init()` with a stored pinned state. -/
def world0 : World :=
  Toolbar.init { top := 40, left := 10, isPinned := true }

/-- The world after toolbars were created for `editableA` and `editableB`. -/
def world2 : World :=
  run [Event.createSurface editableA, Event.createSurface editableB] world0

/-! ## The constructor and `createSurface` -/

theorem pushTabs_eq (editable : Editable) (container : Nat) (settings : List TabSettings)
    (tabs : List Tab) :
    pushTabs editable container settings tabs
      = tabs ++ settings.map (newTab editable container) := by
  induction settings generalizing tabs with
  | nil => simp [pushTabs]
  | cons s rest ih => simp [pushTabs, ih]

theorem constructor_of_some (editable : Editable) (w : World) (tabs : List TabSettings)
    (h : editable.settingsToolbar = some tabs) :
    Toolbar._constructor editable w = some (w.heap.length,
      { w with
        calls := w.calls ++ [Call.surfaceSuper w.heap.length editable.id,
                              Call.makeFloating w.heap.length]
        nextElement := w.nextElement + 2
        heap := w.heap ++ [{ element := w.nextElement, container := w.nextElement + 1,
                             moveTimeout := none, style := none }]
        protoTabs := w.protoTabs ++ tabs.map (newTab editable (w.nextElement + 1)) }) := by
  simp [Toolbar._constructor, createElement, h, pushTabs_eq]

theorem createSurface_of_nonempty (editable : Editable) (w : World)
    (tabs : List TabSettings) (h : editable.settingsToolbar = some tabs) (hne : tabs ≠ []) :
    Toolbar.createSurface editable w = (some w.heap.length,
      { editable with toolbars := some ((match editable.toolbars with
                                          | none => []
                                          | some ts => ts) ++ [w.nextElement]) },
      { w with
        instances := w.instances ++ [w.heap.length]
        calls := w.calls ++ [Call.surfaceSuper w.heap.length editable.id,
                              Call.makeFloating w.heap.length]
        nextElement := w.nextElement + 2
        heap := w.heap ++ [{ element := w.nextElement, container := w.nextElement + 1,
                             moveTimeout := none, style := none }]
        protoTabs := w.protoTabs ++ tabs.map (newTab editable (w.nextElement + 1)) }) := by
  have hlen : tabs.length ≠ 0 := by simpa using hne
  simp [Toolbar.createSurface, h, hlen, constructor_of_some editable w tabs h]

theorem createSurface_of_none (editable : Editable) (w : World)
    (h : editable.settingsToolbar = none) :
    Toolbar.createSurface editable w = (none, editable, w) := by
  simp [Toolbar.createSurface, h]

theorem createSurface_of_empty (editable : Editable) (w : World)
    (h : editable.settingsToolbar = some []) :
    Toolbar.createSurface editable w = (none, editable, w) := by
  simp [Toolbar.createSurface, h]

/-- C1: `Toolbar.createSurface(editable)` returns null exactly when
`editable.settings.toolbar` is missing or has length 0; in that case
`Toolbar.instances`, `editable.toolbars` and the set of constructed toolbars
(indeed the whole world and the editable) are unchanged; and for a non-empty
`settings.toolbar` the result is a non-null, newly constructed toolbar. -/
theorem createSurface_null_iff (editable : Editable) (w : World) :
    ((Toolbar.createSurface editable w).1 = none ↔
      (editable.settingsToolbar = none ∨
        ∃ tabs, editable.settingsToolbar = some tabs ∧ tabs.length = 0)) ∧
    ((Toolbar.createSurface editable w).1 = none →
      (Toolbar.createSurface editable w).2.2.instances = w.instances ∧
      (Toolbar.createSurface editable w).2.1.toolbars = editable.toolbars ∧
      (Toolbar.createSurface editable w).2.2.heap = w.heap ∧
      (Toolbar.createSurface editable w).2.2 = w ∧
      (Toolbar.createSurface editable w).2.1 = editable) ∧
    (∀ tabs, editable.settingsToolbar = some tabs → tabs ≠ [] →
      ∃ surface tb, (Toolbar.createSurface editable w).1 = some surface ∧
        (Toolbar.createSurface editable w).2.2.heap[surface]? = some tb ∧
        w.heap[surface]? = none) := by
  have key : ∀ tabs, editable.settingsToolbar = some tabs → tabs ≠ [] →
      ∃ surface tb, (Toolbar.createSurface editable w).1 = some surface ∧
        (Toolbar.createSurface editable w).2.2.heap[surface]? = some tb ∧
        w.heap[surface]? = none := by
    intro tabs h hne
    rw [createSurface_of_nonempty editable w tabs h hne]
    exact ⟨w.heap.length, ⟨w.nextElement, w.nextElement + 1, none, none⟩, rfl, by simp, by simp⟩
  have hnull : (editable.settingsToolbar = none ∨
        ∃ tabs, editable.settingsToolbar = some tabs ∧ tabs.length = 0) →
      Toolbar.createSurface editable w = (none, editable, w) := by
    rintro (h | ⟨tabs, h, hlen⟩)
    · exact createSurface_of_none editable w h
    · have : tabs = [] := List.length_eq_zero.mp hlen
      subst this
      exact createSurface_of_empty editable w h
  have hiff : (Toolbar.createSurface editable w).1 = none ↔
      (editable.settingsToolbar = none ∨
        ∃ tabs, editable.settingsToolbar = some tabs ∧ tabs.length = 0) := by
    constructor
    · intro hres
      cases h : editable.settingsToolbar with
      | none => exact Or.inl rfl
      | some tabs =>
        right
        refine ⟨tabs, rfl, ?_⟩
        by_contra hlen
        have hne : tabs ≠ [] := fun he => hlen (by simp [he])
        obtain ⟨surface, _, hs, _⟩ := key tabs h hne
        rw [hs] at hres
        cases hres
    · intro h
      rw [hnull h]
  refine ⟨hiff, ?_, key⟩
  intro hres
  rw [hnull (hiff.mp hres)]
  exact ⟨rfl, rfl, rfl, rfl, rfl⟩

/-- Witness of C1 on an editable with an empty toolbar setting and on one
with a one-tab setting. -/
theorem createSurface_null_iff_witness :
    (Toolbar.createSurface editableEmpty world0).1 = none ∧
    (Toolbar.createSurface editableEmpty world0).2.2 = world0 ∧
    (∃ surface tb, (Toolbar.createSurface editableA world0).1 = some surface ∧
      (Toolbar.createSurface editableA world0).2.2.heap[surface]? = some tb ∧
      world0.heap[surface]? = none) :=
  have hnone : (Toolbar.createSurface editableEmpty world0).1 = none :=
    (createSurface_null_iff editableEmpty world0).1.2 (Or.inr ⟨[], rfl, rfl⟩)
  ⟨hnone,
   ((createSurface_null_iff editableEmpty world0).2.1 hnone).2.2.2.1,
   (createSurface_null_iff editableA world0).2.2 [formatTab] rfl (by decide)⟩

/-- C2: for an editable with a non-empty `settings.toolbar`,
`createSurface` appends the returned surface as the last element of
`Toolbar.instances`, appends the surface's `$element` as the last element of
`editable.toolbars` (starting from the empty list when the property did not
exist), and leaves `Toolbar.pinTop`, `Toolbar.pinLeft` and
`Toolbar.isFloatingMode` as they were. -/
theorem createSurface_appends (editable : Editable) (w : World) (tabs : List TabSettings)
    (h : editable.settingsToolbar = some tabs) (hne : tabs ≠ []) :
    ∃ surface tb,
      (Toolbar.createSurface editable w).1 = some surface ∧
      (Toolbar.createSurface editable w).2.2.heap[surface]? = some tb ∧
      (Toolbar.createSurface editable w).2.2.instances = w.instances ++ [surface] ∧
      (editable.toolbars = none →
        (Toolbar.createSurface editable w).2.1.toolbars = some [tb.element]) ∧
      (∀ earlier, editable.toolbars = some earlier →
        (Toolbar.createSurface editable w).2.1.toolbars = some (earlier ++ [tb.element])) ∧
      (Toolbar.createSurface editable w).2.2.pinTop = w.pinTop ∧
      (Toolbar.createSurface editable w).2.2.pinLeft = w.pinLeft ∧
      (Toolbar.createSurface editable w).2.2.isFloatingMode = w.isFloatingMode := by
  rw [createSurface_of_nonempty editable w tabs h hne]
  refine ⟨w.heap.length, ⟨w.nextElement, w.nextElement + 1, none, none⟩, rfl, by simp, rfl,
    ?_, ?_, rfl, rfl, rfl⟩
  · intro hnone
    simp [hnone]
  · intro earlier hsome
    simp [hsome]

/-- Witness of C2: the second toolbar created after `Toolbar.init()`. -/
theorem createSurface_appends_witness :
    editableB.settingsToolbar = some [tableTab] ∧ [tableTab] ≠ [] ∧
    ∃ surface tb,
      (Toolbar.createSurface editableB (step (Event.createSurface editableA) world0)).1
        = some surface ∧
      (Toolbar.createSurface editableB
        (step (Event.createSurface editableA) world0)).2.2.heap[surface]? = some tb ∧
      (Toolbar.createSurface editableB
        (step (Event.createSurface editableA) world0)).2.2.instances
          = (step (Event.createSurface editableA) world0).instances ++ [surface] :=
  ⟨rfl, by decide,
    match createSurface_appends editableB (step (Event.createSurface editableA) world0)
      [tableTab] rfl (by decide) with
    | ⟨surface, tb, h1, h2, h3, _⟩ => ⟨surface, tb, h1, h2, h3⟩⟩

/-- C3, at a failing input: after `createSurface` for `editableA` and then
for `editableB` (one settings entry each), the second toolbar's `_tabs` has
two tabs, not one; its first tab was built for `editableA` with the first
toolbar's container, and only its last tab is the one built from
`editableB`'s entry with the second toolbar's own container. -/
theorem tabs_shared_between_toolbars :
    (Toolbar.createSurface editableB (step (Event.createSurface editableA) world0)).1
      = some 1 ∧
    editableB.settingsToolbar = some [tableTab] ∧
    world2.heap[1]?
      = some { element := 3, container := 4, moveTimeout := none, style := none } ∧
    (Toolbar._tabs 1 world2).length = 2 ∧
    Toolbar._tabs 1 world2
      = [ { label := "Format", showOn := "Aloha.continuoustext", editable := 1,
            container := 2, components := [["bold", "italic"], ["formatBlock"]] },
          { label := "", showOn := "table", editable := 2,
            container := 4, components := [["mergecells"]] } ] := by
  refine ⟨?_, rfl, ?_, ?_, ?_⟩ <;> decide

/-- C8: every pin click negates `Toolbar.isFloatingMode` and passes the new
value to `floating.togglePinSurfaces`; two consecutive clicks restore the
flag; and the pin made by `addPin` has the class `aloha-ui-pin-down` exactly
when `Toolbar.isFloatingMode` is false at creation. -/
theorem pinClick_toggles (w : World) (surface : Nat) (offset : Position) (scrollTop : Int)
    (surface2 : Nat) (offset2 : Position) (scrollTop2 : Int) (self : Nat) :
    (pinClick surface offset scrollTop w).isFloatingMode = !w.isFloatingMode ∧
    (∃ instances position,
      (pinClick surface offset scrollTop w).calls
        = w.calls ++ [Call.togglePinSurfaces instances position
            (pinClick surface offset scrollTop w).isFloatingMode]) ∧
    (pinClick surface2 offset2 scrollTop2 (pinClick surface offset scrollTop w)).isFloatingMode
      = w.isFloatingMode ∧
    (∃ pin, (Toolbar.addPin self w).pins = w.pins ++ [pin] ∧ pin.surface = self ∧
      "aloha-ui-pin" ∈ pin.classes ∧
      ("aloha-ui-pin-down" ∈ pin.classes ↔ w.isFloatingMode = false)) := by
  refine ⟨rfl, ⟨_, _, rfl⟩, ?_, ?_⟩
  · simp [pinClick, Toolbar.setFloatingPosition]
  · refine ⟨_, rfl, rfl, ?_, ?_⟩
    · cases h : w.isFloatingMode <;> simp
    · cases h : w.isFloatingMode <;> simp

/-- C10: a click that switches to floating mode leaves `Toolbar.pinTop` and
`Toolbar.pinLeft` unchanged; a click that switches to pinned mode sets them
to the element's offset top minus the window's scrollTop, and the offset
left; either way `getFloatingPosition()` afterwards is the position passed
to `floating.togglePinSurfaces`; and `getFloatingPosition()` after
`setFloatingPosition(p)` is `{top: p.top, left: p.left}`. -/
theorem pinClick_position (w : World) (surface : Nat) (offset : Position) (scrollTop : Int)
    (p : Position) :
    ((pinClick surface offset scrollTop w).isFloatingMode = true →
      (pinClick surface offset scrollTop w).pinTop = w.pinTop ∧
      (pinClick surface offset scrollTop w).pinLeft = w.pinLeft) ∧
    ((pinClick surface offset scrollTop w).isFloatingMode = false →
      (pinClick surface offset scrollTop w).pinTop = offset.top - scrollTop ∧
      (pinClick surface offset scrollTop w).pinLeft = offset.left) ∧
    (pinClick surface offset scrollTop w).calls
      = w.calls ++ [Call.togglePinSurfaces w.instances
          (Toolbar.getFloatingPosition (pinClick surface offset scrollTop w))
          (!w.isFloatingMode)] ∧
    Toolbar.getFloatingPosition (Toolbar.setFloatingPosition p w)
      = { top := p.top, left := p.left } := by
  refine ⟨?_, ?_, ?_, rfl⟩
  · cases h : w.isFloatingMode <;>
      simp [pinClick, Toolbar.setFloatingPosition, h]
  · cases h : w.isFloatingMode <;>
      simp [pinClick, Toolbar.setFloatingPosition, h]
  · cases h : w.isFloatingMode <;>
      simp [pinClick, Toolbar.setFloatingPosition, Toolbar.getFloatingPosition, h]

/-- Witness of C10: a click on the pinned start world floats the toolbars
and keeps the stored coordinates; a second click pins them at the offset
minus the scroll position. -/
theorem pinClick_position_witness :
    (pinClick 0 { top := 300, left := 25 } 120 world0).isFloatingMode = true ∧
    (pinClick 0 { top := 300, left := 25 } 120 world0).pinTop = 40 ∧
    (pinClick 0 { top := 300, left := 25 } 120
      (pinClick 0 { top := 300, left := 25 } 120 world0)).isFloatingMode = false ∧
    (pinClick 0 { top := 300, left := 25 } 120
      (pinClick 0 { top := 300, left := 25 } 120 world0)).pinTop = 300 - 120 :=
  ⟨by decide,
   ((pinClick_position world0 0 { top := 300, left := 25 } 120 { top := 0, left := 0 }).1
      (by decide)).1,
   by decide,
   ((pinClick_position (pinClick 0 { top := 300, left := 25 } 120 world0) 0
      { top := 300, left := 25 } 120 { top := 0, left := 0 }).2.1 (by decide)).1⟩

end Aloha

namespace UndoShim

/-! ## The loader shim -/

theorem preserve_frame (g : Globals) :
    (preserve g).define = g.define ∧ (preserve g).require = g.require ∧
    (preserve g).requirejs = g.requirejs ∧ (preserve g).written = g.written ∧
    (preserve g).ALOHA_BASE_URL = g.ALOHA_BASE_URL ∧
    windowAlohaDefine (preserve g) = windowAlohaDefine g ∧
    (preserve g).Aloha ≠ AlohaBinding.missing := by
  cases h : g.Aloha <;> simp [preserve, windowAlohaDefine, emptyObject, h]

theorem shim_eq_restore (g : Globals) (base : String) (h : g.ALOHA_BASE_URL = some base) :
    shim g = restore { preserve g with
      define := windowAlohaDefine g
      written := g.written ++
        [ { html := "<script data-gg-define=\"undo/vendor/undo\" src=\"" ++ base ++
              "plugins/common/undo/vendor/undo.js\"></script>",
            define := windowAlohaDefine g },
          { html := "<script data-gg-define=\"undo/vendor/diff_match_patch_uncompressed\" src=\""
              ++ base ++
              "plugins/common/undo/vendor/diff_match_patch_uncompressed.js\"></script>",
            define := windowAlohaDefine g },
          { html := "<script data-gg-define=\"undo/undo-plugin\" src=\"" ++ base ++
              "plugins/common/undo/lib/undo-plugin.js\"></script>",
            define := windowAlohaDefine g } ] } := by
  cases hA : g.Aloha <;>
    simp [shim, preserve, inject, windowAlohaDefine, emptyObject, h, hA, bind, Except.bind]

theorem restore_ok (g : Globals) (hA : g.Aloha ≠ AlohaBinding.missing) :
    ∃ g', restore g = .ok g' ∧ g'.written = g.written ∧ g'.Aloha = g.Aloha := by
  cases h : g.Aloha with
  | missing => exact absurd h hA
  | primitive => exact ⟨g, by simp [restore, h], rfl, h⟩
  | object aloha =>
    cases hd : aloha._defineReplacedByAloha with
    | none => exact ⟨g, by simp [restore, h, hd], rfl, h⟩
    | some d =>
      exact ⟨{ g with
        define := d.value
        require := readSlot aloha._requireReplacedByAloha
        requirejs := readSlot aloha._requirejsReplacedByAloha },
        by simp [restore, h, hd], rfl, h⟩

theorem windowAlohaDefine_congr (g₁ g₂ : Globals) (h : g₁.Aloha = g₂.Aloha) :
    windowAlohaDefine g₁ = windowAlohaDefine g₂ := by
  unfold windowAlohaDefine
  rw [h]

/-- C5, counterexample: on a page whose `window.Aloha` is a frozen object
`ALOHA_BASE_URL` is defined and the shim completes, but the three saves are
dropped, the `hasOwnProperty` guard is false and the global `define` ends as
`window.Aloha.define`, not as the `window.define` of the start. -/
theorem shim_frozen_not_restored :
    frozenPage.ALOHA_BASE_URL = some "/aloha/" ∧
    (∃ g', shim frozenPage = .ok g' ∧ g'.define = Value.ref 7 ∧
      frozenPage.define = Value.ref 1) ∧
    ¬ ∃ g', shim frozenPage = .ok g' ∧
      g'.define = frozenPage.define ∧ g'.require = frozenPage.require ∧
      g'.requirejs = frozenPage.requirejs := by
  have hs : ∃ g', shim frozenPage = .ok g' ∧ g'.define = Value.ref 7 ∧
      frozenPage.define = Value.ref 1 := by
    rw [shim_eq_restore frozenPage "/aloha/" rfl]
    exact ⟨_, rfl, rfl, rfl⟩
  refine ⟨rfl, hs, ?_⟩
  rintro ⟨g', hok, hd, _, _⟩
  obtain ⟨g'', hok', hd', hstart⟩ := hs
  rw [hok] at hok'
  injection hok' with hg
  rw [hg, hd', hstart] at hd
  cases hd

/-- C5, amended: when `ALOHA_BASE_URL` is defined and the three saves of
lines 33-35 take effect (`window.Aloha` is missing, or an object on which
each of the three properties is writable, or absent with the object
extensible), the shim runs to completion and afterwards the globals
`define`, `require` and `requirejs` have the values `window.define`,
`window.require` and `window.requirejs` had at the start, whatever
`window.Aloha.define` was. -/
theorem shim_restores_loader_hooks (g : Globals) (base : String)
    (h : g.ALOHA_BASE_URL = some base) (hsave : savesTakeEffect g = true) :
    ∃ g', shim g = .ok g' ∧
      g'.define = g.define ∧ g'.require = g.require ∧ g'.requirejs = g.requirejs := by
  rw [shim_eq_restore g base h]
  cases hA : g.Aloha with
  | missing =>
    exact ⟨_, by simp [restore, preserve, hA, assign, emptyObject]; rfl,
      by simp [readSlot], by simp [readSlot], by simp [readSlot]⟩
  | primitive => simp [savesTakeEffect, hA] at hsave
  | object aloha =>
    obtain ⟨d, s1, s2, s3, ext⟩ := aloha
    simp only [savesTakeEffect, hA, Bool.and_eq_true] at hsave
    obtain ⟨⟨h1, h2⟩, h3⟩ := hsave
    cases s1 <;> cases s2 <;> cases s3 <;>
      simp only [canAssign] at h1 h2 h3 <;>
      simp [restore, preserve, hA, assign, readSlot, h1, h2, h3]

/-- Witness of C5 on a page whose `requirejs` is undefined. -/
theorem shim_restores_loader_hooks_witness :
    samplePage.ALOHA_BASE_URL = some "/aloha/" ∧ savesTakeEffect samplePage = true ∧
    ∃ g', shim samplePage = .ok g' ∧
      g'.define = Value.ref 1 ∧ g'.require = Value.ref 2 ∧
      g'.requirejs = Value.undefined :=
  ⟨rfl, rfl, shim_restores_loader_hooks samplePage "/aloha/" rfl rfl⟩

/-- C6: for every value of `ALOHA_BASE_URL` the shim calls `document.write`
exactly three times, with the script tags for `undo/vendor/undo`,
`undo/vendor/diff_match_patch_uncompressed` and `undo/undo-plugin` in this
order, each `src` being the base URL followed by the fixed relative path;
at each write the global `define` is `window.Aloha.define`. -/
theorem shim_writes_three_tags (g : Globals) (base : String)
    (h : g.ALOHA_BASE_URL = some base) :
    ∃ g', shim g = .ok g' ∧
      windowAlohaDefine g' = windowAlohaDefine g ∧
      g'.written = g.written ++
        [ { html := "<script data-gg-define=\"undo/vendor/undo\" src=\"" ++
              (base ++ "plugins/common/undo/vendor/undo.js") ++ "\"></script>",
            define := windowAlohaDefine g' },
          { html := "<script data-gg-define=\"undo/vendor/diff_match_patch_uncompressed\" src=\""
              ++ (base ++ "plugins/common/undo/vendor/diff_match_patch_uncompressed.js")
              ++ "\"></script>",
            define := windowAlohaDefine g' },
          { html := "<script data-gg-define=\"undo/undo-plugin\" src=\"" ++
              (base ++ "plugins/common/undo/lib/undo-plugin.js") ++ "\"></script>",
            define := windowAlohaDefine g' } ] := by
  obtain ⟨_, _, _, _, _, hd, hA⟩ := preserve_frame g
  rw [shim_eq_restore g base h]
  obtain ⟨g', hok, hw, hAl⟩ := restore_ok { preserve g with
      define := windowAlohaDefine g
      written := g.written ++
        [ { html := "<script data-gg-define=\"undo/vendor/undo\" src=\"" ++ base ++
              "plugins/common/undo/vendor/undo.js\"></script>",
            define := windowAlohaDefine g },
          { html := "<script data-gg-define=\"undo/vendor/diff_match_patch_uncompressed\" src=\""
              ++ base ++
              "plugins/common/undo/vendor/diff_match_patch_uncompressed.js\"></script>",
            define := windowAlohaDefine g },
          { html := "<script data-gg-define=\"undo/undo-plugin\" src=\"" ++ base ++
              "plugins/common/undo/lib/undo-plugin.js\"></script>",
            define := windowAlohaDefine g } ] } hA
  have hd' : windowAlohaDefine g' = windowAlohaDefine g :=
    (windowAlohaDefine_congr g' (preserve g) hAl).trans hd
  refine ⟨g', hok, hd', ?_⟩
  rw [hw, hd']
  simp [String.append_assoc]

/-- Witness of C6 on the sample page. -/
theorem shim_writes_three_tags_witness :
    samplePage.ALOHA_BASE_URL = some "/aloha/" ∧
    ∃ g', shim samplePage = .ok g' ∧ g'.written.length = 3 ∧
      g'.written.map (fun x => x.define) = [Value.ref 7, Value.ref 7, Value.ref 7] :=
  ⟨rfl,
    match shim_writes_three_tags samplePage "/aloha/" rfl with
    | ⟨g', hok, hd, hw⟩ =>
      ⟨g', hok, by rw [hw]; rfl,
        by rw [hw, hd]; simp [samplePage, windowAlohaDefine, emptyObject]⟩⟩

end UndoShim

namespace Aloha

/-! ## `_move`, `show` and the invariant -/

theorem move_eq (self : Nat) (d : Option Nat) (w : World) (tb : Toolbar)
    (h : w.heap[self]? = some tb) :
    Toolbar._move self d w = { w with
      timers := afterClear tb w ++ [{ handle := w.lastTimer + 1, surface := self, duration := d }]
      lastTimer := w.lastTimer + 1
      heap := w.heap.set self { tb with moveTimeout := some (w.lastTimer + 1) } } := by
  obtain ⟨e, c, m, st⟩ := tb
  unfold Toolbar._move afterClear
  rw [h]
  cases m with
  | none => simp [setTimeout]
  | some handle =>
    by_cases h0 : handle = 0
    · simp [setTimeout, h0]
    · simp [setTimeout, clearTimeout, h0]

theorem move_of_invalid (self : Nat) (d : Option Nat) (w : World)
    (h : w.heap[self]? = none) : Toolbar._move self d w = w := by
  simp [Toolbar._move, h]

theorem afterClear_sublist (tb : Toolbar) (w : World) :
    (afterClear tb w).Sublist w.timers := by
  unfold afterClear
  cases tb.moveTimeout with
  | none => exact List.Sublist.refl _
  | some handle =>
    by_cases h0 : handle = 0
    · simp [h0]
    · simp only [ne_eq, h0, not_false_eq_true, if_true]
      exact List.filter_sublist _

theorem afterClear_not_own (self : Nat) (w : World) (tb : Toolbar)
    (hw : TimersOwned w) (h : w.heap[self]? = some tb) :
    ∀ τ ∈ afterClear tb w, τ.surface ≠ self := by
  intro τ hτ hs
  have hmem : τ ∈ w.timers := (afterClear_sublist tb w).subset hτ
  obtain ⟨hne, _, tb', hget, hmt⟩ := hw τ hmem
  rw [hs, h] at hget
  cases hget
  unfold afterClear at hτ
  rw [hmt] at hτ
  simp [hne] at hτ

theorem pendingMoves_move (self : Nat) (d : Option Nat) (w : World) (tb : Toolbar)
    (hw : TimersOwned w) (h : w.heap[self]? = some tb) :
    pendingMoves self (Toolbar._move self d w)
      = [{ handle := w.lastTimer + 1, surface := self, duration := d }] := by
  rw [move_eq self d w tb h]
  have hnil : (afterClear tb w).filter (fun t => t.surface = self) = [] := by
    rw [List.filter_eq_nil_iff]
    intro τ hτ
    simpa using afterClear_not_own self w tb hw h τ hτ
  simp [pendingMoves, List.filter_append, hnil]

theorem pendingMoves_move_other (self other : Nat) (d : Option Nat) (w : World)
    (hne : other ≠ self) :
    (pendingMoves other (Toolbar._move self d w)).length ≤ (pendingMoves other w).length := by
  cases h : w.heap[self]? with
  | none => rw [move_of_invalid self d w h]
  | some tb =>
    rw [move_eq self d w tb h]
    have hsub := (afterClear_sublist tb w).filter (fun t => decide (t.surface = other))
    have hnew : ¬ self = other := fun he => hne he.symm
    simpa [pendingMoves, List.filter_append, hnew] using hsub.length_le

theorem consistent_move (self : Nat) (d : Option Nat) (w : World) (hw : Consistent w) :
    Consistent (Toolbar._move self d w) := by
  cases h : w.heap[self]? with
  | none => rw [move_of_invalid self d w h]; exact hw
  | some tb =>
    obtain ⟨hown, hone, hinst⟩ := hw
    have hlt : self < w.heap.length := by
      by_contra hge
      rw [List.getElem?_eq_none (Nat.le_of_not_lt hge)] at h
      cases h
    refine ⟨?_, ?_, ?_⟩
    · intro τ hτ
      rw [move_eq self d w tb h] at hτ ⊢
      simp only [List.mem_append, List.mem_singleton] at hτ
      rcases hτ with hτ | hτ
      · have hmem : τ ∈ w.timers := (afterClear_sublist tb w).subset hτ
        have hns : τ.surface ≠ self := afterClear_not_own self w tb hown h τ hτ
        obtain ⟨h0, hle, tb', hget, hmt⟩ := hown τ hmem
        refine ⟨h0, Nat.le_succ_of_le hle, tb', ?_, hmt⟩
        simp only
        rw [List.getElem?_set_ne (fun he => hns he.symm)]
        exact hget
      · subst hτ
        refine ⟨by simp, le_refl _, { tb with moveTimeout := some (w.lastTimer + 1) }, ?_, rfl⟩
        simp only
        rw [List.getElem?_set_self hlt]
    · intro other
      by_cases hne : other = self
      · subst hne
        rw [pendingMoves_move other d w tb hown h]
        simp
      · exact le_trans (pendingMoves_move_other self other d w hne) (hone other)
    · intro t ht
      rw [move_eq self d w tb h] at ht ⊢
      simpa using hinst t ht

theorem show_eq (self : Nat) (w : World) (tb : Toolbar) (h : w.heap[self]? = some tb) :
    Toolbar.show self w = Toolbar._move self none { w with
      surfaceChildren := [tb.element]
      fadeOutPending := false
      heap := w.heap.set self { tb with style := some (Toolbar.getFloatingPosition w) } } := by
  unfold Toolbar.show
  rw [h]
  rfl

theorem show_of_invalid (self : Nat) (w : World) (h : w.heap[self]? = none) :
    Toolbar.show self w = w := by
  unfold Toolbar.show
  rw [h]

theorem lt_of_getElem?_some {α : Type} (l : List α) (i : Nat) (a : α) (h : l[i]? = some a) :
    i < l.length := by
  by_contra hge
  rw [List.getElem?_eq_none (Nat.le_of_not_lt hge)] at h
  cases h

theorem consistent_restyle (self : Nat) (w : World) (tb : Toolbar) (children : List Nat)
    (fading : Bool) (style : Option Position) (h : w.heap[self]? = some tb)
    (hw : Consistent w) :
    Consistent { w with
      surfaceChildren := children
      fadeOutPending := fading
      heap := w.heap.set self { tb with style := style } } := by
  obtain ⟨hown, hone, hinst⟩ := hw
  have hlt := lt_of_getElem?_some _ _ _ h
  refine ⟨?_, hone, ?_⟩
  · intro τ hτ
    obtain ⟨h0, hle, tb', hget, hmt⟩ := hown τ hτ
    by_cases hs : τ.surface = self
    · rw [hs, h] at hget
      cases hget
      refine ⟨h0, hle, { tb with style := style }, ?_, hmt⟩
      simp only
      rw [hs, List.getElem?_set_self hlt]
    · refine ⟨h0, hle, tb', ?_, hmt⟩
      simp only
      rw [List.getElem?_set_ne (fun he => hs he.symm)]
      exact hget
  · intro t ht
    simpa using hinst t ht

theorem consistent_show (self : Nat) (w : World) (hw : Consistent w) :
    Consistent (Toolbar.show self w) := by
  cases h : w.heap[self]? with
  | none => rw [show_of_invalid self w h]; exact hw
  | some tb =>
    rw [show_eq self w tb h]
    exact consistent_move _ _ _ (consistent_restyle self w tb _ _ _ h hw)

theorem consistent_createSurface (editable : Editable) (w : World) (hw : Consistent w) :
    Consistent (Toolbar.createSurface editable w).2.2 := by
  cases h : editable.settingsToolbar with
  | none => rw [createSurface_of_none editable w h]; exact hw
  | some tabs =>
    by_cases hne : tabs = []
    · subst hne
      rw [createSurface_of_empty editable w h]; exact hw
    · rw [createSurface_of_nonempty editable w tabs h hne]
      obtain ⟨hown, hone, hinst⟩ := hw
      refine ⟨?_, hone, ?_⟩
      · intro τ hτ
        obtain ⟨h0, hle, tb', hget, hmt⟩ := hown τ hτ
        refine ⟨h0, hle, tb', ?_, hmt⟩
        simp only
        rw [List.getElem?_append_left (lt_of_getElem?_some _ _ _ hget)]
        exact hget
      · intro t ht
        simp only [List.mem_append, List.mem_singleton, List.length_append,
          List.length_singleton] at ht ⊢
        rcases ht with ht | ht
        · exact Nat.lt_succ_of_lt (hinst t ht)
        · omega

theorem consistent_fireTimer (handle : Nat) (activeEditable : Option Nat) (w : World)
    (hw : Consistent w) : Consistent (fireTimer handle activeEditable w) := by
  obtain ⟨hown, hone, hinst⟩ := hw
  have hbase : Consistent { w with timers := w.timers.filter (fun t => t.handle ≠ handle) } := by
    refine ⟨?_, ?_, hinst⟩
    · intro τ hτ
      exact hown τ (List.mem_of_mem_filter hτ)
    · intro self
      have hsub := (List.filter_sublist (p := fun t => decide (t.handle ≠ handle))
        w.timers).filter (fun t => decide (t.surface = self))
      exact le_trans hsub.length_le (hone self)
  unfold fireTimer
  cases w.timers.find? (fun t => t.handle = handle) with
  | none => exact ⟨hown, hone, hinst⟩
  | some t =>
    simp only
    unfold moveCallback
    cases activeEditable with
    | none => exact hbase
    | some editable =>
      simp only
      split
      · exact hbase
      · exact hbase

theorem consistent_step (ev : Event) (w : World) (hw : Consistent w) :
    Consistent (step ev w) := by
  match ev with
  | .createSurface editable => exact consistent_createSurface editable w hw
  | .addPin self => exact hw
  | .pinClick surface offset scrollTop => exact hw
  | .move self duration => exact consistent_move self duration w hw
  | .fireTimer handle activeEditable => exact consistent_fireTimer handle activeEditable w hw
  | .floatCallback position => exact hw
  | .show self => exact consistent_show self w hw
  | .hide self => exact hw
  | .fadeOutComplete =>
    simp only [step, fadeOutComplete]
    split
    · exact hw
    · exact hw

theorem consistent_run (evs : List Event) (w : World) (hw : Consistent w) :
    Consistent (run evs w) := by
  induction evs generalizing w with
  | nil => exact hw
  | cons ev rest ih => exact ih (step ev w) (consistent_step ev w hw)

theorem consistent_init (pinState : PinState) : Consistent (Toolbar.init pinState) := by
  refine ⟨?_, ?_, ?_⟩
  · intro τ hτ
    simp [Toolbar.init] at hτ
  · intro self
    simp [pendingMoves, Toolbar.init]
  · intro t ht
    simp [Toolbar.init] at ht

theorem move_cancels_previous (self : Nat) (d : Option Nat) (w : World) (tb : Toolbar)
    (hw : TimersOwned w) (h : w.heap[self]? = some tb) :
    ∀ τ ∈ pendingMoves self w, τ ∉ (Toolbar._move self d w).timers := by
  intro τ hτ hmem
  have hτ' := List.mem_filter.mp hτ
  have hs : τ.surface = self := by simpa using hτ'.2
  rw [move_eq self d w tb h] at hmem
  simp only [List.mem_append, List.mem_singleton] at hmem
  rcases hmem with hmem | hmem
  · exact afterClear_not_own self w tb hw h τ hmem hs
  · have hle := (hw τ hτ'.1).2.1
    rw [hmem] at hle
    simp at hle

theorem fireTimer_after_move (self : Nat) (d : Option Nat) (activeEditable : Option Nat)
    (w : World) (tb : Toolbar) (hw : TimersOwned w) (h : w.heap[self]? = some tb) :
    fireTimer (w.lastTimer + 1) activeEditable (Toolbar._move self d w)
      = moveCallback self d activeEditable { Toolbar._move self d w with
          timers := (Toolbar._move self d w).timers.filter
            (fun t => t.handle ≠ w.lastTimer + 1) } := by
  have hfind : (Toolbar._move self d w).timers.find? (fun t => t.handle = w.lastTimer + 1)
      = some { handle := w.lastTimer + 1, surface := self, duration := d } := by
    rw [move_eq self d w tb h]
    simp only
    rw [List.find?_append]
    have hnone : (afterClear tb w).find? (fun t => decide (t.handle = w.lastTimer + 1))
        = none := by
      rw [List.find?_eq_none]
      intro τ hτ
      have hle := (hw τ ((afterClear_sublist tb w).subset hτ)).2.1
      simp only [decide_eq_true_eq]
      omega
    rw [hnone]
    simp
  unfold fireTimer
  rw [hfind]

theorem moveAll_snoc (self : Nat) (earlier : List (Option Nat)) (d : Option Nat) (w : World) :
    moveAll self (earlier ++ [d]) w = Toolbar._move self d (moveAll self earlier w) := by
  simp [moveAll, List.foldl_append]

theorem consistent_moveAll (self : Nat) (ds : List (Option Nat)) (w : World)
    (hw : Consistent w) : Consistent (moveAll self ds w) := by
  induction ds generalizing w with
  | nil => exact hw
  | cons d rest ih => exact ih (Toolbar._move self d w) (consistent_move self d w hw)

theorem heap_length_move (self : Nat) (d : Option Nat) (w : World) :
    (Toolbar._move self d w).heap.length = w.heap.length := by
  cases h : w.heap[self]? with
  | none => rw [move_of_invalid self d w h]
  | some tb => rw [move_eq self d w tb h]; simp

theorem heap_length_moveAll (self : Nat) (ds : List (Option Nat)) (w : World) :
    (moveAll self ds w).heap.length = w.heap.length := by
  induction ds generalizing w with
  | nil => rfl
  | cons d rest ih =>
    have := ih (Toolbar._move self d w)
    rw [heap_length_move] at this
    exact this

/-! ## Frame of the pin position, validity of references, the surface container -/

theorem position_createSurface (editable : Editable) (w : World) :
    Toolbar.getFloatingPosition (Toolbar.createSurface editable w).2.2
      = Toolbar.getFloatingPosition w := by
  cases h : editable.settingsToolbar with
  | none => rw [createSurface_of_none editable w h]
  | some tabs =>
    by_cases hne : tabs = []
    · subst hne
      rw [createSurface_of_empty editable w h]
    · rw [createSurface_of_nonempty editable w tabs h hne]
      rfl

theorem position_move (self : Nat) (d : Option Nat) (w : World) :
    Toolbar.getFloatingPosition (Toolbar._move self d w) = Toolbar.getFloatingPosition w := by
  cases h : w.heap[self]? with
  | none => rw [move_of_invalid self d w h]
  | some tb => rw [move_eq self d w tb h]; rfl

theorem position_show (self : Nat) (w : World) :
    Toolbar.getFloatingPosition (Toolbar.show self w) = Toolbar.getFloatingPosition w := by
  cases h : w.heap[self]? with
  | none => rw [show_of_invalid self w h]
  | some tb => rw [show_eq self w tb h, position_move]; rfl

theorem position_fireTimer (handle : Nat) (activeEditable : Option Nat) (w : World) :
    Toolbar.getFloatingPosition (fireTimer handle activeEditable w)
      = Toolbar.getFloatingPosition w := by
  unfold fireTimer
  cases w.timers.find? (fun t => t.handle = handle) with
  | none => rfl
  | some t =>
    simp only
    unfold moveCallback
    cases activeEditable with
    | none => rfl
    | some editable =>
      simp only
      split <;> rfl

theorem position_step (ev : Event) (w : World) (hquiet : ev.updatesPosition = false) :
    Toolbar.getFloatingPosition (step ev w) = Toolbar.getFloatingPosition w := by
  match ev with
  | .createSurface editable => exact position_createSurface editable w
  | .addPin self => rfl
  | .pinClick surface offset scrollTop => simp [Event.updatesPosition] at hquiet
  | .move self duration => exact position_move self duration w
  | .fireTimer handle activeEditable => exact position_fireTimer handle activeEditable w
  | .floatCallback position => simp [Event.updatesPosition] at hquiet
  | .show self => exact position_show self w
  | .hide self => rfl
  | .fadeOutComplete =>
    simp only [step, fadeOutComplete]
    split <;> rfl

theorem position_run (evs : List Event) (w : World)
    (hquiet : ∀ ev ∈ evs, ev.updatesPosition = false) :
    Toolbar.getFloatingPosition (run evs w) = Toolbar.getFloatingPosition w := by
  induction evs generalizing w with
  | nil => rfl
  | cons ev rest ih =>
    have h1 := ih (step ev w) (fun e he => hquiet e (List.mem_cons_of_mem _ he))
    have h2 := position_step ev w (hquiet ev (List.mem_cons_self _ _))
    exact h1.trans h2

theorem heap_length_step (ev : Event) (w : World) :
    w.heap.length ≤ (step ev w).heap.length := by
  match ev with
  | .createSurface editable =>
    simp only [step]
    cases h : editable.settingsToolbar with
    | none => rw [createSurface_of_none editable w h]
    | some tabs =>
      by_cases hne : tabs = []
      · subst hne
        rw [createSurface_of_empty editable w h]
      · rw [createSurface_of_nonempty editable w tabs h hne]
        simp
  | .addPin self => exact le_refl _
  | .pinClick surface offset scrollTop => exact le_refl _
  | .move self duration => exact le_of_eq (heap_length_move self duration w).symm
  | .fireTimer handle activeEditable =>
    simp only [step, fireTimer]
    cases w.timers.find? (fun t => t.handle = handle) with
    | none => exact le_refl _
    | some t =>
      simp only
      unfold moveCallback
      cases activeEditable with
      | none => exact le_refl _
      | some editable =>
        simp only
        split <;> exact le_refl _
  | .floatCallback position => exact le_refl _
  | .show self =>
    simp only [step]
    cases h : w.heap[self]? with
    | none => rw [show_of_invalid self w h]
    | some tb => rw [show_eq self w tb h, heap_length_move]; simp
  | .hide self => exact le_refl _
  | .fadeOutComplete =>
    simp only [step, fadeOutComplete]
    split <;> exact le_refl _

theorem heap_length_run (evs : List Event) (w : World) :
    w.heap.length ≤ (run evs w).heap.length := by
  induction evs generalizing w with
  | nil => exact le_refl _
  | cons ev rest ih => exact le_trans (heap_length_step ev w) (ih (step ev w))

theorem show_effect (self : Nat) (w : World) (tb : Toolbar) (h : w.heap[self]? = some tb) :
    (Toolbar.show self w).surfaceChildren = [tb.element] ∧
    (Toolbar.show self w).heap[self]?
      = some { tb with
          style := some (Toolbar.getFloatingPosition w)
          moveTimeout := some (w.lastTimer + 1) } := by
  have hlt := lt_of_getElem?_some _ _ _ h
  have h1 : (w.heap.set self
      { tb with style := some (Toolbar.getFloatingPosition w) })[self]?
      = some { tb with style := some (Toolbar.getFloatingPosition w) } :=
    List.getElem?_set_self hlt
  rw [show_eq self w tb h, move_eq self none _ _ h1]
  refine ⟨rfl, ?_⟩
  simp only [List.set_set]
  rw [List.getElem?_set_self hlt]

theorem children_step (ev : Event) (w : World) (hw : w.surfaceChildren.length ≤ 1) :
    (step ev w).surfaceChildren.length ≤ 1 := by
  match ev with
  | .createSurface editable =>
    simp only [step]
    cases h : editable.settingsToolbar with
    | none => rw [createSurface_of_none editable w h]; exact hw
    | some tabs =>
      by_cases hne : tabs = []
      · subst hne
        rw [createSurface_of_empty editable w h]; exact hw
      · rw [createSurface_of_nonempty editable w tabs h hne]
        exact hw
  | .addPin self => exact hw
  | .pinClick surface offset scrollTop => exact hw
  | .move self duration =>
    simp only [step]
    cases h : w.heap[self]? with
    | none => rw [move_of_invalid self duration w h]; exact hw
    | some tb => rw [move_eq self duration w tb h]; exact hw
  | .fireTimer handle activeEditable =>
    simp only [step, fireTimer]
    cases w.timers.find? (fun t => t.handle = handle) with
    | none => exact hw
    | some t =>
      simp only
      unfold moveCallback
      cases activeEditable with
      | none => exact hw
      | some editable =>
        simp only
        split <;> exact hw
  | .floatCallback position => exact hw
  | .show self =>
    simp only [step]
    cases h : w.heap[self]? with
    | none => rw [show_of_invalid self w h]; exact hw
    | some tb => rw [(show_effect self w tb h).1]; simp
  | .hide self => exact hw
  | .fadeOutComplete =>
    simp only [step, fadeOutComplete]
    split
    · simp
    · exact hw

theorem children_run (evs : List Event) (w : World) (hw : w.surfaceChildren.length ≤ 1) :
    (run evs w).surfaceChildren.length ≤ 1 := by
  induction evs generalizing w with
  | nil => exact hw
  | cons ev rest ih => exact ih (step ev w) (children_step ev w hw)

theorem filter_swap {α : Type} (p q : α → Bool) (l : List α) :
    (l.filter q).filter p = (l.filter p).filter q := by
  simp only [List.filter_filter]
  congr 1
  funext a
  exact Bool.and_comm _ _

theorem timers_moveCallback (that : Nat) (d : Option Nat) (activeEditable : Option Nat)
    (w : World) : (moveCallback that d activeEditable w).timers = w.timers := by
  unfold moveCallback
  cases activeEditable with
  | none => rfl
  | some editable =>
    simp only
    split <;> rfl

theorem pinClick_pinned (surface : Nat) (offset : Position) (scrollTop : Int) (w : World)
    (h : (pinClick surface offset scrollTop w).isFloatingMode = false) :
    pinClick surface offset scrollTop w = { w with
      isFloatingMode := false
      pinTop := offset.top - scrollTop
      pinLeft := offset.left
      calls := w.calls ++ [Call.togglePinSurfaces w.instances
        { top := offset.top - scrollTop, left := offset.left } false] } := by
  have hw : w.isFloatingMode = true := by
    cases hf : w.isFloatingMode with
    | true => rfl
    | false => simp [pinClick, Toolbar.setFloatingPosition, hf] at h
  simp [pinClick, Toolbar.setFloatingPosition, hw]

/-- C4: when a pin click (after any history since `Toolbar.init()`) leaves
the toolbars pinned, `floating.togglePinSurfaces` has been called with the
whole `Toolbar.instances` list and the position p = (offset top minus
scrollTop, offset left); and after any later events that do not update the
position, `show()` on any toolbar of `Toolbar.instances` sets that toolbar's
element top/left to p. -/
theorem pinning_is_global (pinState : PinState) (evs : List Event) (surface : Nat)
    (offset : Position) (scrollTop : Int) (later : List Event) (t : Nat)
    (hpinned : (pinClick surface offset scrollTop
      (run evs (Toolbar.init pinState))).isFloatingMode = false)
    (hquiet : ∀ ev ∈ later, ev.updatesPosition = false)
    (ht : t ∈ (pinClick surface offset scrollTop (run evs (Toolbar.init pinState))).instances) :
    (pinClick surface offset scrollTop (run evs (Toolbar.init pinState))).calls
      = (run evs (Toolbar.init pinState)).calls ++
        [Call.togglePinSurfaces (run evs (Toolbar.init pinState)).instances
          { top := offset.top - scrollTop, left := offset.left } false] ∧
    (pinClick surface offset scrollTop (run evs (Toolbar.init pinState))).instances
      = (run evs (Toolbar.init pinState)).instances ∧
    ∃ tb, (Toolbar.show t (run later (pinClick surface offset scrollTop
        (run evs (Toolbar.init pinState))))).heap[t]? = some tb ∧
      tb.style = some { top := offset.top - scrollTop, left := offset.left } := by
  have hc : Consistent (run evs (Toolbar.init pinState)) :=
    consistent_run evs _ (consistent_init pinState)
  have heq := pinClick_pinned surface offset scrollTop _ hpinned
  rw [heq] at ht ⊢
  refine ⟨rfl, rfl, ?_⟩
  have hlt : t < (run evs (Toolbar.init pinState)).heap.length := hc.2.2 t ht
  obtain ⟨tb0, htb0⟩ : ∃ tb0, (run later { run evs (Toolbar.init pinState) with
      isFloatingMode := false
      pinTop := offset.top - scrollTop
      pinLeft := offset.left
      calls := (run evs (Toolbar.init pinState)).calls ++
        [Call.togglePinSurfaces (run evs (Toolbar.init pinState)).instances
          { top := offset.top - scrollTop, left := offset.left } false] }).heap[t]?
      = some tb0 := by
    have hlen := heap_length_run later { run evs (Toolbar.init pinState) with
      isFloatingMode := false
      pinTop := offset.top - scrollTop
      pinLeft := offset.left
      calls := (run evs (Toolbar.init pinState)).calls ++
        [Call.togglePinSurfaces (run evs (Toolbar.init pinState)).instances
          { top := offset.top - scrollTop, left := offset.left } false] }
    exact ⟨_, List.getElem?_eq_getElem (lt_of_lt_of_le hlt hlen)⟩
  refine ⟨_, (show_effect t _ tb0 htb0).2, ?_⟩
  simp only
  rw [position_run later _ hquiet]
  rfl

/-- Witness of C4: two toolbars, a click on the first one's pin while
scrolled by 120, then the first toolbar is shown and hidden, then the second
is shown. -/
theorem pinning_is_global_witness :
    ∃ tb, (Toolbar.show 1 (run [Event.show 0, Event.hide 0]
        (pinClick 0 { top := 300, left := 25 } 120
          (run [Event.createSurface editableA, Event.createSurface editableB]
            (Toolbar.init { top := 0, left := 0, isPinned := false }))))).heap[1]? = some tb ∧
      tb.style = some { top := 300 - 120, left := 25 } :=
  (pinning_is_global { top := 0, left := 0, isPinned := false }
    [Event.createSurface editableA, Event.createSurface editableB] 0
    { top := 300, left := 25 } 120 [Event.show 0, Event.hide 0] 1
    (by decide) (by decide) (by decide)).2.2

/-- C7: `_move` is a debounce.  In every state reached from
`Toolbar.init()` each toolbar has at most one pending move timer; a call of
`_move` removes the toolbar's earlier pending timer from the queue; and
after one or more consecutive calls of `_move` on a toolbar exactly one move
timer of that toolbar is pending, carrying the last call's duration: firing
it runs the callback with that duration and leaves none pending. -/
theorem move_debounces (pinState : PinState) (evs : List Event) (self : Nat)
    (earlier : List (Option Nat)) (duration : Option Nat) (activeEditable : Option Nat)
    (hself : self < (run evs (Toolbar.init pinState)).heap.length) :
    (∀ t, (pendingMoves t (run evs (Toolbar.init pinState))).length ≤ 1) ∧
    (∀ τ ∈ pendingMoves self (moveAll self earlier (run evs (Toolbar.init pinState))),
      τ ∉ (moveAll self (earlier ++ [duration]) (run evs (Toolbar.init pinState))).timers) ∧
    ∃ handle,
      pendingMoves self (moveAll self (earlier ++ [duration]) (run evs (Toolbar.init pinState)))
        = [{ handle := handle, surface := self, duration := duration }] ∧
      fireTimer handle activeEditable
          (moveAll self (earlier ++ [duration]) (run evs (Toolbar.init pinState)))
        = moveCallback self duration activeEditable
            { moveAll self (earlier ++ [duration]) (run evs (Toolbar.init pinState)) with
              timers := (moveAll self (earlier ++ [duration])
                (run evs (Toolbar.init pinState))).timers.filter
                  (fun t => t.handle ≠ handle) } ∧
      pendingMoves self (fireTimer handle activeEditable
        (moveAll self (earlier ++ [duration]) (run evs (Toolbar.init pinState)))) = [] := by
  have hc : Consistent (run evs (Toolbar.init pinState)) :=
    consistent_run evs _ (consistent_init pinState)
  have hc' := consistent_moveAll self earlier _ hc
  have hlt : self < (moveAll self earlier (run evs (Toolbar.init pinState))).heap.length := by
    rw [heap_length_moveAll]; exact hself
  have hget : (moveAll self earlier (run evs (Toolbar.init pinState))).heap[self]?
      = some ((moveAll self earlier (run evs (Toolbar.init pinState))).heap[self]) :=
    List.getElem?_eq_getElem hlt
  rw [moveAll_snoc]
  refine ⟨hc.2.1, move_cancels_previous self duration _ _ hc'.1 hget, _,
    pendingMoves_move self duration _ _ hc'.1 hget,
    fireTimer_after_move self duration activeEditable _ _ hc'.1 hget, ?_⟩
  rw [fireTimer_after_move self duration activeEditable _ _ hc'.1 hget]
  have hp := pendingMoves_move self duration _ _ hc'.1 hget
  unfold pendingMoves at hp ⊢
  rw [timers_moveCallback]
  simp only
  rw [filter_swap, hp]
  simp

/-- Witness of C7: three calls of `_move` on the first of two toolbars,
after it was shown once. -/
theorem move_debounces_witness :
    0 < (run [Event.createSurface editableA, Event.createSurface editableB, Event.show 0]
      (Toolbar.init { top := 40, left := 10, isPinned := true })).heap.length ∧
    ∃ handle,
      pendingMoves 0 (moveAll 0 ([some 200, none] ++ [some 400])
        (run [Event.createSurface editableA, Event.createSurface editableB, Event.show 0]
          (Toolbar.init { top := 40, left := 10, isPinned := true })))
        = [{ handle := handle, surface := 0, duration := some 400 }] :=
  ⟨by decide,
    match (move_debounces { top := 40, left := 10, isPinned := true }
      [Event.createSurface editableA, Event.createSurface editableB, Event.show 0] 0
      [some 200, none] (some 400) (some 1) (by decide)).2.2 with
    | ⟨handle, h, _⟩ => ⟨handle, h⟩⟩

/-- C9: right after `t.show()` the children of `Toolbar.$surfaceContainer`
are exactly `[t.$element]`, whatever they were before, and `t.$element` has
the top/left of the current `Toolbar.getFloatingPosition()`; a `hide()`
whose fade-out completes empties the container; from then on,
and likewise from `Toolbar.init()` on, no sequence of events (shows, hides,
fade-out completions and all others) makes the container hold more than one
element. -/
theorem show_replaces_children (w : World) (t : Nat) (tb : Toolbar) (evs : List Event)
    (pinState : PinState) (h : w.heap[t]? = some tb) :
    (Toolbar.show t w).surfaceChildren = [tb.element] ∧
    (∃ tb', (Toolbar.show t w).heap[t]? = some tb' ∧ tb'.element = tb.element ∧
      tb'.style = some (Toolbar.getFloatingPosition w)) ∧
    (fadeOutComplete (Toolbar.hide t (Toolbar.show t w))).surfaceChildren = [] ∧
    (run evs (Toolbar.show t w)).surfaceChildren.length ≤ 1 ∧
    (run evs (Toolbar.init pinState)).surfaceChildren.length ≤ 1 := by
  obtain ⟨hchildren, hheap⟩ := show_effect t w tb h
  refine ⟨hchildren, ⟨_, hheap, rfl, rfl⟩, by simp [fadeOutComplete, Toolbar.hide], ?_, ?_⟩
  · apply children_run
    rw [hchildren]
    simp
  · apply children_run
    simp [Toolbar.init]

/-- Witness of C9: the second toolbar is shown while the container holds
two stray elements. -/
theorem show_replaces_children_witness :
    (Toolbar.show 1 { world2 with surfaceChildren := [1, 3] }).surfaceChildren = [3] ∧
    (run [Event.hide 1, Event.show 0, Event.fadeOutComplete]
      (Toolbar.show 1 { world2 with surfaceChildren := [1, 3] })).surfaceChildren.length ≤ 1 :=
  have h := show_replaces_children { world2 with surfaceChildren := [1, 3] } 1
    { element := 3, container := 4, moveTimeout := none, style := none }
    [Event.hide 1, Event.show 0, Event.fadeOutComplete]
    { top := 0, left := 0, isPinned := false } (by decide)
  ⟨h.1, h.2.2.2.1⟩

end Aloha
